import Mathlib

set_option maxHeartbeats 1000000

/-!
Shallow embedding of `userspace/falco/swappable_falco_engine.cpp`.

The file translates the swappable engine's data model (config, rules files,
the built engine, the swap state) and its operations (`config()`,
`contains_event_source`, `open_files`, `init`, `engine`, `replace`,
`validate`, `create_new`) into executable Lean definitions.  Collaborators
that live outside this file (the rule loader, `falco_engine::load_rules`,
`load_result::as_string`, `is_plugin_compatible`, `enable_rule`,
`enable_rule_by_tag`) are modelled from the specification, as marked on each
definition.
-/

def syscall_source : String := "syscall"

def k8s_audit_source : String := "k8s_audit"

structure Rule where
  name : String
  tags : List String
  deriving DecidableEq, Repr

structure ERule where
  rule : Rule
  enabled : Bool
  deriving DecidableEq, Repr

/-- Modelled from the spec: a `RuleFile` is a filename plus its parsed content.
The external loader (`falco_engine::load_rules`) reports, per file, a success
flag, an error detail, warnings, the rules the file contributes, and the
minimum plugin versions those rules declare; a `Rulesfile` value carries that
load outcome directly. -/
structure Rulesfile where
  name : String
  successful : Bool
  rules : List Rule
  requires : List (String × String)
  errorDetail : String
  warnings : List String
  deriving DecidableEq, Repr

structure plugin_info where
  name : String
  plugin_version : String
  deriving DecidableEq, Repr

structure Config where
  output_format : String
  replace_container_info : Bool
  min_priority : Nat
  json_output : Bool
  verbose : Bool
  event_sources : List String
  plugin_infos : List plugin_info
  disabled_rule_substrings : List String
  disabled_rule_tags : List String
  enabled_rule_tags : List String
  deriving DecidableEq, Repr

/-- `swappable_falco_engine::config::config()`: json_output, verbose and
replace_container_info start false and `event_sources` starts as the two
built-in sources. -/
def Config.init : Config :=
  { output_format := ""
    replace_container_info := false
    min_priority := 0
    json_output := false
    verbose := false
    event_sources := [syscall_source, k8s_audit_source]
    plugin_infos := []
    disabled_rule_substrings := []
    disabled_rule_tags := []
    enabled_rule_tags := [] }

/-- `swappable_falco_engine::config::contains_event_source`: exact membership
in `event_sources`. -/
def Config.contains_event_source (c : Config) (source : String) : Bool :=
  c.event_sources.contains source

inductive FactoryKind where
  | sinspFactory
  | jsonFactory
  | pluginFactory
  deriving DecidableEq, Repr

/-- The factory pair registered for a source name in `create_new`'s loop:
`"syscall"` gets sinsp factories, `"k8s_audit"` gets json factories, anything
else is assumed to be a source plugin. -/
def factory_for (source : String) : FactoryKind :=
  if source == syscall_source then FactoryKind.sinspFactory
  else if source == k8s_audit_source then FactoryKind.jsonFactory
  else FactoryKind.pluginFactory

/-- The built engine: the configuration applied by `set_extra` /
`set_min_priority`, the registered sources (name, factory kind, json output
mode), the loaded rules with their enabled flags, and the minimum plugin
versions the loaded rules declare. -/
structure falco_engine where
  output_format : String
  replace_container_info : Bool
  min_priority : Nat
  sources : List (String × FactoryKind × Bool)
  rules : List ERule
  requires : List (String × String)
  deriving DecidableEq, Repr

/-- The engine as `create_new` has set it up just before loading rules:
`make_shared<falco_engine>()`, then `set_extra`, `set_min_priority`, and one
`add_source` per configured event source. -/
def base_engine (cfg : Config) : falco_engine :=
  { output_format := cfg.output_format
    replace_container_info := cfg.replace_container_info
    min_priority := cfg.min_priority
    sources := cfg.event_sources.map (fun s => (s, factory_for s, cfg.json_output))
    rules := []
    requires := [] }

/-- Modelled from the spec: `falco_engine::load_rules` (the external
`loadRulesInto` collaborator) merges a successfully loaded file's rules
(initially enabled) and declared plugin requirements into the engine; a failed
file contributes nothing that survives (the instance is discarded anyway). -/
def load_rules (e : falco_engine) (rf : Rulesfile) : falco_engine :=
  if rf.successful then
    { e with
        rules := e.rules ++ rf.rules.map (fun r => { rule := r, enabled := true })
        requires := e.requires ++ rf.requires }
  else e

/-- Modelled from the spec: `load_result::as_string` (the external
`formatDiagnostics` collaborator) renders one file's diagnostics, including
the filename iff `include_filenames` and the warnings iff
`include_warnings`. -/
def result_as_string (rf : Rulesfile) (include_filenames include_warnings : Bool) : String :=
  (if include_filenames then rf.name ++ (": ") else "") ++
  (if rf.successful then ("OK") else rf.errorDetail) ++
  (if include_warnings then String.join rf.warnings else "")

def digitsToNat : List Char → Nat → Nat
  | [], acc => acc
  | c :: cs, acc => digitsToNat cs (acc * 10 + (c.toNat - 48))

def splitVerChars : List Char → List Char → List (List Char)
  | [], cur => [cur.reverse]
  | c :: cs, cur =>
    if c == '.' then cur.reverse :: splitVerChars cs [] else splitVerChars cs (c :: cur)

def parseVer (s : String) : List Nat :=
  (splitVerChars s.toList []).map (fun cs => digitsToNat cs 0)

def verLE : List Nat → List Nat → Bool
  | [], _ => true
  | _ :: _, [] => false
  | a :: as, b :: bs => decide (a < b) || (a == b && verLE as bs)

/-- Modelled from the spec: a supplied plugin version satisfies the declared
minimum when the major components agree and the remaining components are at
least the required ones. -/
def versionSatisfies (supplied required : String) : Bool :=
  match parseVer supplied, parseVer required with
  | s :: srest, r :: rrest => s == r && verLE rrest srest
  | _, _ => false

/-- Modelled from the spec: `falco_engine::is_plugin_compatible` queries
whether the loaded rules declare a minimum required version for the named
plugin and whether the supplied version satisfies it; the second component is
the declared minimum written to the out parameter. -/
def is_plugin_compatible (e : falco_engine) (name version : String) : Bool × String :=
  match e.requires.find? (fun p => p.1 == name) with
  | none => (true, "")
  | some p => (versionSatisfies version p.2, p.2)

/-- The plugin compatibility loop of `create_new` (lines 226-236): the first
incompatible plugin info aborts with the composed error message. -/
def plugin_check (e : falco_engine) : List plugin_info → Option String
  | [] => none
  | info :: rest =>
    let c := is_plugin_compatible e info.name info.plugin_version
    if c.1 then plugin_check e rest
    else
      some (("Plugin ") ++ info.name ++ (" version ") ++ info.plugin_version ++
            (" not compatible with required plugin version ") ++ c.2)

def charsPre : List Char → List Char → Bool
  | [], _ => true
  | _ :: _, [] => false
  | a :: as, b :: bs => a == b && charsPre as bs

def charsSub : List Char → List Char → Bool
  | sub, [] => charsPre sub []
  | sub, c :: cs => charsPre sub (c :: cs) || charsSub sub cs

/-- `true` iff `sub` occurs as a contiguous substring of `s`. -/
def strContainsSub (s sub : String) : Bool := charsSub sub.toList s.toList

/-- Modelled from the spec: `falco_engine::enable_rule` sets the enabled flag
of every rule whose name contains the given substring (the empty substring
matches every rule). -/
def enable_rule (e : falco_engine) (substring : String) (enabled : Bool) : falco_engine :=
  { e with
      rules := e.rules.map (fun r =>
        if strContainsSub r.rule.name substring then { r with enabled := enabled } else r) }

/-- Modelled from the spec: `falco_engine::enable_rule_by_tag` sets the
enabled flag of every rule carrying any of the given tags. -/
def enable_rule_by_tag (e : falco_engine) (tags : List String) (enabled : Bool) : falco_engine :=
  { e with
      rules := e.rules.map (fun r =>
        if r.rule.tags.any (fun t => tags.contains t) then { r with enabled := enabled } else r) }

/-- The rule activation section of `create_new` (lines 238-265): disable by
each substring in list order, then disable by tags when `disabled_rule_tags`
is non-empty, then, when `enabled_rule_tags` is non-empty, disable all rules
(empty substring) and enable the rules carrying an enabled tag. -/
def apply_policy (cfg : Config) (e : falco_engine) : falco_engine :=
  let e1 := cfg.disabled_rule_substrings.foldl (fun acc sub => enable_rule acc sub false) e
  let e2 :=
    if cfg.disabled_rule_tags.length > 0 then enable_rule_by_tag e1 cfg.disabled_rule_tags false
    else e1
  if cfg.enabled_rule_tags.length > 0 then
    enable_rule_by_tag (enable_rule e2 ("") false) cfg.enabled_rule_tags true
  else e2

/-- The rule loading loop of `create_new` (lines 188-215): loads every file
(no short-circuit), and-accumulates the success flag, and appends each file's
`as_string` rendering to the output stream. -/
def build_loop (incf incw : Bool) :
    List Rulesfile → falco_engine → Bool → String → falco_engine × Bool × String
  | [], e, succ, os => (e, succ, os)
  | rf :: rest, e, succ, os =>
    build_loop incf incw rest (load_rules e rf) (succ && rf.successful)
      (os ++ result_as_string rf incf incw)

/-- The engine obtained by loading every file of the list into the base
engine. -/
def load_all (cfg : Config) (files : List Rulesfile) : falco_engine :=
  files.foldl load_rules (base_engine cfg)

/-- `swappable_falco_engine::create_new` (lines 132-268), as a function of the
captured member state (`m_config`, whether `m_inspector` is non-null) and the
rules files.  Returns the engine (or `none`) and the final `errstr`. -/
def create_new (cfg : Config) (has_inspector : Bool) (files : List Rulesfile) :
    Option falco_engine × String :=
  if has_inspector = false then (none, "No inspector provided yet")
  else
    let r := build_loop (decide (1 < files.length)) cfg.verbose files (base_engine cfg) true ""
    if r.2.1 = false then (none, r.2.2)
    else
      match plugin_check r.1 cfg.plugin_infos with
      | some msg => (none, msg)
      | none => (some (apply_policy cfg r.1), r.2.2)

/-- The member state of a `swappable_falco_engine`: configuration, whether an
inspector is attached, the active engine slot, and the pending queue (front =
oldest). -/
structure SwapState where
  m_config : Config
  m_inspector : Bool
  m_engine : Option falco_engine
  m_pending : List falco_engine
  deriving DecidableEq, Repr

/-- The `while(try_pop)` loop of `engine()`: each popped candidate overwrites
`m_engine`, so the last enqueued candidate wins. -/
def drain : Option falco_engine → List falco_engine → Option falco_engine
  | a, [] => a
  | _, e :: es => drain (some e) es

/-- `swappable_falco_engine::engine` (lines 83-98): drain the pending queue
into `m_engine`, then throw if `m_engine` is still null, else return it. -/
def engine (st : SwapState) : Except String (falco_engine × SwapState) :=
  let a := drain st.m_engine st.m_pending
  let st1 : SwapState := { st with m_engine := a, m_pending := [] }
  match a with
  | none => Except.error ("No engine, must call replace() first")
  | some e => Except.ok (e, st1)

/-- `swappable_falco_engine::replace` (lines 105-120): build via `create_new`;
on failure return false leaving the state untouched, on success push the new
engine on the pending queue. -/
def replace (st : SwapState) (files : List Rulesfile) : Bool × String × SwapState :=
  match create_new st.m_config st.m_inspector files with
  | (none, err) => (false, err, st)
  | (some e, err) => (true, err, { st with m_pending := st.m_pending ++ [e] })

/-- `swappable_falco_engine::validate` (lines 122-130): build via `create_new`
and report whether it succeeded, discarding the result. -/
def validate (st : SwapState) (files : List Rulesfile) : Bool × String × SwapState :=
  match create_new st.m_config st.m_inspector files with
  | (none, err) => (false, err, st)
  | (some _, err) => (true, err, st)

/-- `swappable_falco_engine::init` (lines 73-81): store the config and
inspector, then `replace` with an empty rules file list. -/
def init (st : SwapState) (cfg : Config) (inspector : Bool) : Bool × String × SwapState :=
  replace { st with m_config := cfg, m_inspector := inspector } []

/-- The loop of `open_files`: one entry is emplaced per file before its load
is attempted; a failed load returns immediately with the caller's error slot
untouched (the per-file error goes to a shadowing local). -/
def open_files_go (load : String → Bool × Rulesfile × String) :
    List String → List Rulesfile → String → Bool × List Rulesfile × String
  | [], acc, _ => (true, acc, "")
  | fn :: rest, acc, caller_err =>
    let r := load fn
    let acc1 := acc ++ [r.2.1]
    if r.1 then open_files_go load rest acc1 caller_err
    else (false, acc1, caller_err)

/-- `swappable_falco_engine::open_files` (lines 40-62).  Modelled from the
spec: `falco_engine::rulesfile::load` is the external loader
`load(filename) -> Result<RuleFile, string>`; it is passed here as a function
giving, per filename, the success flag, the entry state after the load
attempt, and the error string the loader writes into its caller-supplied
slot (which `open_files` shadows and discards). -/
def open_files (load : String → Bool × Rulesfile × String) (filenames : List String)
    (rulesfiles : List Rulesfile) (errstr : String) : Bool × List Rulesfile × String :=
  open_files_go load filenames [] errstr

/-- Modelled from the spec: configs are default-constructed (`config()`) and
event sources are only ever added afterwards; the other fields may be set
freely. -/
inductive Config.Reachable : Config → Prop
  | base : Config.Reachable Config.init
  | add_source (c : Config) (s : String) : Config.Reachable c →
      Config.Reachable { c with event_sources := c.event_sources ++ [s] }
  | set_fields (c c1 : Config) : Config.Reachable c →
      c1.event_sources = c.event_sources → Config.Reachable c1

/-! ### Helper lemmas -/

/-- Concatenation of a list of strings, used to state the aggregated
diagnostics report. -/
def strConcat : List String → String
  | [] => ""
  | s :: rest => s ++ strConcat rest

theorem build_loop_succ (incf incw : Bool) (files : List Rulesfile) :
    ∀ (e : falco_engine) (succ : Bool) (os : String),
      (build_loop incf incw files e succ os).2.1 = (succ && files.all fun rf => rf.successful) := by
  induction files with
  | nil => intro e succ os; simp [build_loop]
  | cons rf rest ih =>
    intro e succ os
    simp [build_loop, ih, List.all_cons, Bool.and_assoc]

theorem build_loop_report (incf incw : Bool) (files : List Rulesfile) :
    ∀ (e : falco_engine) (succ : Bool) (os : String),
      (build_loop incf incw files e succ os).2.2 =
        os ++ strConcat (files.map fun rf => result_as_string rf incf incw) := by
  induction files with
  | nil => intro e succ os; simp [build_loop, strConcat, String.append_empty]
  | cons rf rest ih =>
    intro e succ os
    simp [build_loop, ih, strConcat, String.append_assoc]

theorem build_loop_engine (incf incw : Bool) (files : List Rulesfile) :
    ∀ (e : falco_engine) (succ : Bool) (os : String),
      (build_loop incf incw files e succ os).1 = files.foldl load_rules e := by
  induction files with
  | nil => intro e succ os; simp [build_loop]
  | cons rf rest ih =>
    intro e succ os
    simp [build_loop, ih, List.foldl]

theorem create_new_of_load_failure (cfg : Config) (files : List Rulesfile)
    (h : (files.all fun rf => rf.successful) = false) :
    create_new cfg true files =
      (none, strConcat (files.map fun rf =>
        result_as_string rf (decide (1 < files.length)) cfg.verbose)) := by
  unfold create_new
  rw [if_neg (by simp)]
  rw [if_pos (by simp [build_loop_succ, h])]
  rw [build_loop_report]
  rw [String.empty_append]

theorem create_new_none_of_fail (cfg : Config) (b : Bool) (files : List Rulesfile)
    (h : (files.all fun rf => rf.successful) = false) :
    (create_new cfg b files).1 = none := by
  cases b with
  | false => rfl
  | true => rw [create_new_of_load_failure cfg files h]

theorem create_new_of_plugin_fail (cfg : Config) (files : List Rulesfile) (msg : String)
    (hok : (files.all fun rf => rf.successful) = true)
    (hp : plugin_check (load_all cfg files) cfg.plugin_infos = some msg) :
    create_new cfg true files = (none, msg) := by
  unfold create_new
  rw [if_neg (by simp)]
  rw [if_neg (by simp [build_loop_succ, hok])]
  rw [build_loop_engine]
  show (match plugin_check (load_all cfg files) cfg.plugin_infos with
        | some msg => ((none : Option falco_engine), msg)
        | none => (some (apply_policy cfg (load_all cfg files)), _)) = (none, msg)
  rw [hp]

theorem create_new_of_all_ok (cfg : Config) (files : List Rulesfile)
    (hok : (files.all fun rf => rf.successful) = true)
    (hp : plugin_check (load_all cfg files) cfg.plugin_infos = none) :
    create_new cfg true files =
      (some (apply_policy cfg (load_all cfg files)),
       strConcat (files.map fun rf =>
         result_as_string rf (decide (1 < files.length)) cfg.verbose)) := by
  unfold create_new
  rw [if_neg (by simp)]
  rw [if_neg (by simp [build_loop_succ, hok])]
  rw [build_loop_engine]
  show (match plugin_check (load_all cfg files) cfg.plugin_infos with
        | some msg => ((none : Option falco_engine), msg)
        | none => (some (apply_policy cfg (load_all cfg files)),
                   (build_loop (decide (1 < files.length)) cfg.verbose files
                     (base_engine cfg) true "").2.2)) = _
  rw [hp, build_loop_report, String.empty_append]

theorem create_new_some_eq (cfg : Config) (b : Bool) (files : List Rulesfile)
    (e : falco_engine) (h : (create_new cfg b files).1 = some e) :
    e = apply_policy cfg (load_all cfg files) := by
  cases b with
  | false => exact absurd h (by simp [create_new])
  | true =>
    rcases hall : (files.all fun rf => rf.successful) with hf | ht
    · rw [create_new_none_of_fail cfg true files hall] at h; exact absurd h (by simp)
    · rcases hp : plugin_check (load_all cfg files) cfg.plugin_infos with _ | msg
      · rw [create_new_of_all_ok cfg files hall hp] at h
        simpa using h.symm
      · rw [create_new_of_plugin_fail cfg files msg hall hp] at h
        exact absurd h (by simp)

/-! ### Claim theorems -/

/-- C1: if candidates A then B were enqueued since the last access (A strictly
before B), a single `engine()` call drains all pending candidates, makes B the
active engine and returns B; a subsequent call with no intervening
promote/replace returns the same instance B unchanged. -/
theorem engine_drains_and_idempotent (st : SwapState) (A B : falco_engine)
    (h : st.m_pending = [A, B]) :
    engine st = Except.ok (B, { st with m_engine := some B, m_pending := [] }) ∧
    engine { st with m_engine := some B, m_pending := [] } =
      Except.ok (B, { st with m_engine := some B, m_pending := [] }) := by
  constructor
  · simp [engine, h, drain]
  · simp [engine, drain]

def engA : falco_engine :=
  { output_format := "A"
    replace_container_info := false
    min_priority := 0
    sources := []
    rules := []
    requires := [] }

def engB : falco_engine := { engA with output_format := "B" }

def stC1 : SwapState :=
  { m_config := Config.init
    m_inspector := true
    m_engine := none
    m_pending := [engA, engB] }

theorem engine_drains_and_idempotent_witness :
    stC1.m_pending = [engA, engB] ∧
    engine stC1 = Except.ok (engB, { stC1 with m_engine := some engB, m_pending := [] }) :=
  ⟨rfl, (engine_drains_and_idempotent stC1 engA engB rfl).1⟩

/-- C2: whenever at least one supplied rules file failed to load, `replace`
returns failure, enqueues no candidate, and leaves the whole member state (in
particular the active engine observed by the consumer) exactly as before. -/
theorem replace_failed_load_preserves_state (st : SwapState) (files : List Rulesfile)
    (h : (files.all fun rf => rf.successful) = false) :
    (replace st files).1 = false ∧ (replace st files).2.2 = st := by
  have h1 := create_new_none_of_fail st.m_config st.m_inspector files h
  rcases hcc : create_new st.m_config st.m_inspector files with ⟨o, err⟩
  rw [hcc] at h1
  simp only at h1
  subst h1
  simp [replace, hcc]

def rfBad : Rulesfile :=
  { name := "bad.yaml"
    successful := false
    rules := []
    requires := []
    errorDetail := "syntax error"
    warnings := [] }

def stC2 : SwapState :=
  { m_config := Config.init
    m_inspector := true
    m_engine := some engA
    m_pending := [] }

theorem replace_failed_load_preserves_state_witness :
    (([rfBad] : List Rulesfile).all fun rf => rf.successful) = false ∧
    (replace stC2 [rfBad]).1 = false ∧ (replace stC2 [rfBad]).2.2 = stC2 :=
  ⟨rfl, (replace_failed_load_preserves_state stC2 [rfBad] rfl).1,
   (replace_failed_load_preserves_state stC2 [rfBad] rfl).2⟩

/-- C3: `validate` and `replace` run the identical build (`create_new`) on the
same inputs: `validate` succeeds exactly when the build produces an engine,
never changes the member state (so it enqueues nothing and the active engine
is untouched), and `replace` on the same state succeeds exactly when the same
build succeeds — hence a successful `validate` implies an immediately
following `replace` with unchanged inspector and config also succeeds. -/
theorem validate_replace_same_build (st : SwapState) (files : List Rulesfile) :
    (validate st files).2.2 = st ∧
    (validate st files).1 = (create_new st.m_config st.m_inspector files).1.isSome ∧
    (replace st files).1 = (create_new st.m_config st.m_inspector files).1.isSome := by
  rcases hcc : create_new st.m_config st.m_inspector files with ⟨o, err⟩
  cases o <;> simp [validate, replace, hcc]

/-- C7 counterexample: a build attempted without an inspector fails with the
message "No inspector provided yet", which differs from the claimed message
"No inspector/source provided yet". -/
theorem inspector_error_message_cex :
    create_new Config.init false [] = (none, "No inspector provided yet") ∧
    ("No inspector provided yet" : String) ≠ "No inspector/source provided yet" :=
  ⟨rfl, by decide⟩

/-- C7 (amended): every build attempted while no inspector is attached fails
before any other step with the error message "No inspector provided yet" and
returns no engine. -/
theorem no_inspector_build_fails (cfg : Config) (files : List Rulesfile) :
    create_new cfg false files = (none, "No inspector provided yet") := rfl

theorem charsSub_nil (l : List Char) : charsSub [] l = true := by
  cases l <;> simp [charsSub, charsPre]

theorem strContainsSub_empty (s : String) : strContainsSub s ("") = true :=
  charsSub_nil s.toList

theorem enable_all_then_by_tag (e : falco_engine) (tags : List String) :
    (enable_rule_by_tag (enable_rule e ("") false) tags true).rules.all
      (fun er => er.enabled == er.rule.tags.any fun t => tags.contains t) = true := by
  rw [List.all_eq_true]
  intro er hm
  simp only [enable_rule_by_tag, enable_rule, List.map_map] at hm
  rcases List.mem_map.mp hm with ⟨r0, _, rfl⟩
  simp only [Function.comp, strContainsSub_empty, if_true]
  rcases htag : r0.rule.tags.any fun t => tags.contains t with hf | ht <;>
    simp_all

/-- C4: the activation policy of `create_new` runs substring disables, then
tag disables, then — when `enabled_rule_tags` is non-empty — disables all
rules and enables exactly the rules carrying an enabled tag; consequently,
whenever `enabled_rule_tags` is non-empty, every rule of the produced engine
is enabled iff it carries an enabled tag, regardless of the substring and
disabled-tag directives. -/
theorem enabled_tags_exclusive_allowlist (cfg : Config) (b : Bool)
    (files : List Rulesfile) (e : falco_engine)
    (htags : cfg.enabled_rule_tags.length > 0)
    (h : (create_new cfg b files).1 = some e) :
    e.rules.all
      (fun er => er.enabled == er.rule.tags.any fun t => cfg.enabled_rule_tags.contains t)
      = true := by
  rw [create_new_some_eq cfg b files e h]
  unfold apply_policy
  rw [if_pos htags]
  exact enable_all_then_by_tag _ cfg.enabled_rule_tags

def cfgC4 : Config :=
  { Config.init with
      enabled_rule_tags := ["filesystem"]
      disabled_rule_tags := ["network"] }

def rfC4 : Rulesfile :=
  { name := "rules.yaml"
    successful := true
    rules := [⟨"open_read", ["filesystem"]⟩, ⟨"net_conn", ["network"]⟩]
    requires := []
    errorDetail := ""
    warnings := [] }

def engC4 : falco_engine := apply_policy cfgC4 (load_all cfgC4 [rfC4])

theorem enabled_tags_exclusive_allowlist_witness :
    cfgC4.enabled_rule_tags.length > 0 ∧
    (create_new cfgC4 true [rfC4]).1 = some engC4 ∧
    engC4.rules.all
      (fun er => er.enabled == er.rule.tags.any fun t => cfgC4.enabled_rule_tags.contains t)
      = true :=
  ⟨by decide, rfl, enabled_tags_exclusive_allowlist cfgC4 true [rfC4] engC4 (by decide) rfl⟩

def cfgC5 : Config := { Config.init with plugin_infos := [⟨"json", "1.0.0"⟩] }

def rfC5 : Rulesfile :=
  { name := "rules.yaml"
    successful := true
    rules := []
    requires := [("json", "2.0.0")]
    errorDetail := ""
    warnings := [] }

/-- C5 counterexample: a build in which every supplied rules file loads
successfully can still fail (here on plugin compatibility), so "the build
fails iff at least one file failed" is false as stated. -/
theorem build_fails_without_file_failure_cex :
    (create_new cfgC5 true [rfC5]).1 = none ∧
    (([rfC5] : List Rulesfile).all fun rf => rf.successful) = true :=
  ⟨rfl, rfl⟩

/-- C5 (amended): during a build with the inspector attached, every supplied
rules file is loaded and contributes a diagnostics entry even if an earlier
file failed; the entries are concatenated into one report in file order, with
per-file names included iff more than one file was supplied and warnings
included iff `config.verbose` is set; at least one failed file forces the
build to fail with that report, and when additionally every configured plugin
is compatible the build fails iff at least one file failed (a fully successful
build returns the engine together with the same report). -/
theorem create_new_load_report (cfg : Config) (files : List Rulesfile) :
    ((files.all fun rf => rf.successful) = false →
      create_new cfg true files =
        (none, strConcat (files.map fun rf =>
          result_as_string rf (decide (1 < files.length)) cfg.verbose))) ∧
    ((files.all fun rf => rf.successful) = true →
      plugin_check (load_all cfg files) cfg.plugin_infos = none →
      create_new cfg true files =
        (some (apply_policy cfg (load_all cfg files)),
         strConcat (files.map fun rf =>
           result_as_string rf (decide (1 < files.length)) cfg.verbose))) :=
  ⟨fun h => create_new_of_load_failure cfg files h,
   fun hok hp => create_new_of_all_ok cfg files hok hp⟩

theorem create_new_load_report_witness :
    (([rfBad] : List Rulesfile).all fun rf => rf.successful) = false ∧
    create_new Config.init true [rfBad] =
      (none, strConcat (([rfBad] : List Rulesfile).map fun rf =>
        result_as_string rf (decide (1 < ([rfBad] : List Rulesfile).length))
          Config.init.verbose)) :=
  ⟨rfl, (create_new_load_report Config.init [rfBad]).1 rfl⟩

theorem plugin_check_some (e : falco_engine) (infos : List plugin_info) (msg : String)
    (h : plugin_check e infos = some msg) :
    ∃ info req, info ∈ infos ∧
      is_plugin_compatible e info.name info.plugin_version = (false, req) ∧
      msg = ("Plugin ") ++ info.name ++ (" version ") ++ info.plugin_version ++
            (" not compatible with required plugin version ") ++ req := by
  induction infos with
  | nil => exact absurd h (by simp [plugin_check])
  | cons info rest ih =>
    rcases hpair : is_plugin_compatible e info.name info.plugin_version with ⟨b, req⟩
    simp only [plugin_check, hpair] at h
    cases b with
    | true =>
      simp only [if_true] at h
      rcases ih h with ⟨i, r, hi, hcomp, hmsg⟩
      exact ⟨i, r, List.mem_cons_of_mem _ hi, hcomp, hmsg⟩
    | false =>
      simp only [Bool.false_eq_true, if_false, Option.some.injEq] at h
      exact ⟨info, req, List.mem_cons_self _ _, hpair, h.symm⟩

/-- C6: if every rules file loaded successfully but a configured plugin is not
compatible with the version the loaded rules require, the build fails hard
(no engine, nothing promoted: `replace` leaves the state untouched) and the
error string returned to the caller is exactly the compatibility message
naming the plugin, the supplied version, and the required version. -/
theorem plugin_incompatible_hard_failure (st : SwapState) (files : List Rulesfile)
    (msg : String)
    (hins : st.m_inspector = true)
    (hfiles : (files.all fun rf => rf.successful) = true)
    (hp : plugin_check (load_all st.m_config files) st.m_config.plugin_infos = some msg) :
    create_new st.m_config st.m_inspector files = (none, msg) ∧
    replace st files = (false, msg, st) ∧
    ∃ info req, info ∈ st.m_config.plugin_infos ∧
      is_plugin_compatible (load_all st.m_config files) info.name info.plugin_version
        = (false, req) ∧
      msg = ("Plugin ") ++ info.name ++ (" version ") ++ info.plugin_version ++
            (" not compatible with required plugin version ") ++ req := by
  have hcn : create_new st.m_config st.m_inspector files = (none, msg) := by
    rw [hins]
    exact create_new_of_plugin_fail st.m_config files msg hfiles hp
  exact ⟨hcn, by simp [replace, hcn], plugin_check_some _ _ _ hp⟩

def cfgC6 : Config := { Config.init with plugin_infos := [⟨"json", "1.0.0"⟩] }

def rfC6 : Rulesfile :=
  { name := "rules.yaml"
    successful := true
    rules := []
    requires := [("json", "2.0.0")]
    errorDetail := ""
    warnings := [] }

def stC6 : SwapState :=
  { m_config := cfgC6
    m_inspector := true
    m_engine := some engA
    m_pending := [] }

def msgC6 : String :=
  "Plugin json version 1.0.0 not compatible with required plugin version 2.0.0"

theorem plugin_incompatible_hard_failure_witness :
    stC6.m_inspector = true ∧
    (([rfC6] : List Rulesfile).all fun rf => rf.successful) = true ∧
    plugin_check (load_all stC6.m_config [rfC6]) stC6.m_config.plugin_infos = some msgC6 ∧
    replace stC6 [rfC6] = (false, msgC6, stC6) :=
  ⟨rfl, rfl, rfl, (plugin_incompatible_hard_failure stC6 [rfC6] msgC6 rfl rfl rfl).2.1⟩

theorem plugin_check_no_requires (e : falco_engine) (h : e.requires = []) :
    ∀ infos, plugin_check e infos = none := by
  intro infos
  induction infos with
  | nil => rfl
  | cons info rest ih => simp [plugin_check, is_plugin_compatible, h, ih]

theorem enable_rule_rules_nil (e : falco_engine) (s : String) (b : Bool)
    (h : e.rules = []) : (enable_rule e s b).rules = [] := by
  simp [enable_rule, h]

theorem enable_rule_by_tag_rules_nil (e : falco_engine) (tags : List String) (b : Bool)
    (h : e.rules = []) : (enable_rule_by_tag e tags b).rules = [] := by
  simp [enable_rule_by_tag, h]

theorem foldl_enable_rule_rules_nil (subs : List String) :
    ∀ e : falco_engine, e.rules = [] →
      (subs.foldl (fun acc sub => enable_rule acc sub false) e).rules = [] := by
  induction subs with
  | nil => intro e h; simpa using h
  | cons s rest ih =>
    intro e h
    exact ih _ (enable_rule_rules_nil e s false h)

theorem apply_policy_rules_nil (cfg : Config) (e : falco_engine) (h : e.rules = []) :
    (apply_policy cfg e).rules = [] := by
  have h1 : ((cfg.disabled_rule_substrings.foldl
      (fun acc sub => enable_rule acc sub false) e)).rules = [] :=
    foldl_enable_rule_rules_nil _ e h
  simp only [apply_policy]
  split
  · split
    · exact enable_rule_by_tag_rules_nil _ _ _
        (enable_rule_rules_nil _ _ _ (enable_rule_by_tag_rules_nil _ _ _ h1))
    · exact enable_rule_by_tag_rules_nil _ _ _ (enable_rule_rules_nil _ _ _ h1)
  · split
    · exact enable_rule_by_tag_rules_nil _ _ _ h1
    · exact h1

/-- C8: calling `engine()` when no engine was ever initialized or promoted
throws (the not-initialized fatal condition) instead of returning; after a
successful `init` with zero rules files every call returns the same valid
rule-less engine and never throws. -/
theorem engine_uninitialized_and_init_ok (st : SwapState) (cfg : Config)
    (h1 : st.m_engine = none) (h2 : st.m_pending = []) :
    engine st = Except.error ("No engine, must call replace() first") ∧
    (init st cfg true).1 = true ∧
    (∃ e st2, e.rules = [] ∧
      engine (init st cfg true).2.2 = Except.ok (e, st2) ∧
      engine st2 = Except.ok (e, st2)) := by
  have hcn : create_new cfg true [] =
      (some (apply_policy cfg (base_engine cfg)), "") := by
    have h3 := create_new_of_all_ok cfg []
      (by simp) (plugin_check_no_requires (load_all cfg []) rfl cfg.plugin_infos)
    simpa [load_all, strConcat] using h3
  refine ⟨?_, ?_, ?_⟩
  · simp [engine, h1, h2, drain]
  · simp [init, replace, hcn]
  · refine ⟨apply_policy cfg (base_engine cfg),
      { m_config := cfg
        m_inspector := true
        m_engine := some (apply_policy cfg (base_engine cfg))
        m_pending := [] },
      apply_policy_rules_nil cfg (base_engine cfg) rfl, ?_, ?_⟩
    · simp [init, replace, hcn, engine, h1, h2, drain]
    · simp [engine, drain]

def stC8 : SwapState :=
  { m_config := Config.init
    m_inspector := false
    m_engine := none
    m_pending := [] }

theorem engine_uninitialized_and_init_ok_witness :
    stC8.m_engine = none ∧ stC8.m_pending = [] ∧
    engine stC8 = Except.error ("No engine, must call replace() first") ∧
    (init stC8 Config.init true).1 = true :=
  ⟨rfl, rfl, (engine_uninitialized_and_init_ok stC8 Config.init rfl rfl).1,
   (engine_uninitialized_and_init_ok stC8 Config.init rfl rfl).2.1⟩

/-- C9: every reachable config keeps both built-in event sources in
`event_sources` (they are there from construction and additions never remove
them), and `contains_event_source` is exact string membership. -/
theorem event_sources_invariant (c : Config) (h : Config.Reachable c) :
    (syscall_source ∈ c.event_sources ∧ k8s_audit_source ∈ c.event_sources) ∧
    ∀ s, c.contains_event_source s = true ↔ s ∈ c.event_sources := by
  constructor
  · induction h with
    | base => constructor <;> simp [Config.init]
    | add_source c0 s hr ih =>
      exact ⟨List.mem_append.mpr (Or.inl ih.1), List.mem_append.mpr (Or.inl ih.2)⟩
    | set_fields c0 c1 hr hes ih => rw [hes]; exact ih
  · intro s
    simp [Config.contains_event_source, List.elem_iff]

theorem event_sources_invariant_witness :
    Config.Reachable Config.init ∧
    syscall_source ∈ Config.init.event_sources ∧
    k8s_audit_source ∈ Config.init.event_sources :=
  ⟨Config.Reachable.base,
   (event_sources_invariant Config.init Config.Reachable.base).1.1,
   (event_sources_invariant Config.init Config.Reachable.base).1.2⟩

theorem open_files_go_ok (load : String → Bool × Rulesfile × String)
    (fns : List String) :
    ∀ (acc : List Rulesfile) (err : String),
      (∀ fn ∈ fns, (load fn).1 = true) →
      open_files_go load fns acc err =
        (true, acc ++ fns.map fun fn => (load fn).2.1, "") := by
  induction fns with
  | nil => intro acc err _; simp [open_files_go]
  | cons fn rest ih =>
    intro acc err h
    have hfn : (load fn).1 = true := h fn (by simp)
    have hrest : ∀ g ∈ rest, (load g).1 = true := fun g hg => h g (by simp [hg])
    simp [open_files_go, hfn, ih (acc ++ [(load fn).2.1]) err hrest]

theorem open_files_go_fail (load : String → Bool × Rulesfile × String)
    (pre : List String) :
    ∀ (f : String) (post : List String) (acc : List Rulesfile) (err : String),
      (∀ g ∈ pre, (load g).1 = true) →
      (load f).1 = false →
      open_files_go load (pre ++ f :: post) acc err =
        (false, acc ++ (pre.map fun fn => (load fn).2.1) ++ [(load f).2.1], err) := by
  induction pre with
  | nil =>
    intro f post acc err _ hf
    simp [open_files_go, hf]
  | cons g rest ih =>
    intro f post acc err hpre hf
    have hg : (load g).1 = true := hpre g (by simp)
    have hrest : ∀ x ∈ rest, (load x).1 = true := fun x hx => hpre x (by simp [hx])
    have h2 := ih f post (acc ++ [(load g).2.1]) err hrest hf
    simp only [List.cons_append, open_files_go, hg, if_true]
    simpa [List.append_assoc] using h2

/-- C10: `open_files` first clears the output list, loads the files in order,
and stops at the first failing file: on failure it returns false with the
caller's `errstr` slot left unmodified (the per-file load error goes to a
shadowing local and is lost) and with one entry per attempted file, including
the failed one; on success it returns true, sets `errstr` to the empty string,
and yields one loaded entry per filename in order. -/
theorem open_files_behavior (load : String → Bool × Rulesfile × String)
    (filenames : List String) (rulesfiles : List Rulesfile) (errstr : String) :
    ((∀ fn ∈ filenames, (load fn).1 = true) →
      open_files load filenames rulesfiles errstr =
        (true, filenames.map (fun fn => (load fn).2.1), "")) ∧
    (∀ pre f post, filenames = pre ++ f :: post →
      (∀ g ∈ pre, (load g).1 = true) →
      (load f).1 = false →
      open_files load filenames rulesfiles errstr =
        (false, (pre.map fun fn => (load fn).2.1) ++ [(load f).2.1], errstr)) := by
  constructor
  · intro h
    simpa [open_files] using open_files_go_ok load filenames [] errstr h
  · intro pre f post hsplit hpre hf
    rw [hsplit]
    simpa [open_files] using open_files_go_fail load pre f post [] errstr hpre hf

def rfW : Rulesfile :=
  { name := "w"
    successful := true
    rules := []
    requires := []
    errorDetail := ""
    warnings := [] }

def loadW (fn : String) : Bool × Rulesfile × String :=
  if fn == "bad" then (false, rfW, "load error") else (true, rfW, "")

theorem open_files_behavior_witness :
    (∀ g ∈ (["good"] : List String), (loadW g).1 = true) ∧
    (loadW ("bad")).1 = false ∧
    open_files loadW (["good", "bad", "tail"]) [] ("previous") =
      (false, ((["good"] : List String).map fun fn => (loadW fn).2.1) ++
        [(loadW ("bad")).2.1], "previous") :=
  ⟨by decide, rfl,
   (open_files_behavior loadW (["good", "bad", "tail"]) [] ("previous")).2
     ["good"] ("bad") ["tail"] rfl (by decide) rfl⟩
